import Mathlib

/-
  Verification development for a CircuitPlayground Express pomodoro timer
  (src/lib/pomodoro.py).  The hardware collaborator (pixel buffer, tone
  generator, raw buttons, switch, monotonic clock) is modelled by an input
  trace of ticks and an output trace of events; each loop iteration of the
  Python code consumes one tick, whose fields give the monotonic time and
  the raw button states read during that iteration.
-/

namespace CpxPomodoro

/-- An RGB colour triple, as used by the pixel buffer. -/
abbrev RGB := ℕ × ℕ × ℕ

/-- Kernel-computable rational addition.  The library addition on the
rationals is marked irreducible, which blocks the evaluation of concrete
runs inside proofs; the model therefore uses this equivalent form, proved
equal to the library addition in qadd_eq below. -/
def qadd (a b : ℚ) : ℚ := mkRat (a.num * b.den + b.num * a.den) (a.den * b.den)

/-- Kernel-computable rational subtraction, proved equal to the library
subtraction in qsub_eq below. -/
def qsub (a b : ℚ) : ℚ := mkRat (a.num * b.den - b.num * a.den) (a.den * b.den)

/-- Kernel-computable rational multiplication, proved equal to the library
multiplication in qmul_eq below. -/
def qmul (a b : ℚ) : ℚ := mkRat (a.num * b.num) (a.den * b.den)

/-- Kernel-computable rational division, proved equal to the library
division in qdiv_eq below. -/
def qdiv (a b : ℚ) : ℚ := Rat.divInt (a.num * b.den) ((a.den : ℤ) * b.num)

def black : RGB := (0, 0, 0)

/-- One loop-iteration's worth of reads from the hardware: the monotonic
clock value and the raw states of buttons A and B. -/
structure Tick where
  now : ℚ
  btnA : Bool
  btnB : Bool
deriving DecidableEq, Repr

/-- The mutable state of the Express subclass: the timestamps of the last
accepted presses on each button channel. -/
structure ExpressState where
  last_button_a : ℚ
  last_button_b : ℚ
deriving DecidableEq, Repr

/-- The debounce window, self.sensitivity = 0.25 in Express.__init__. -/
def sensitivity : ℚ := mkRat 1 4

/-- Express.single_press_a: returns whether the press qualifies and the
updated state.  Mirrors the property body: raw state false gives False with
no update; otherwise the press qualifies exactly when the elapsed time since
the last accepted press exceeds the sensitivity window, in which case the
timestamp is updated to now. -/
def single_press_a (t : Tick) (es : ExpressState) : Bool × ExpressState :=
  if t.btnA = false then (false, es)
  else if qsub t.now es.last_button_a > sensitivity then
    (true, { es with last_button_a := t.now })
  else (false, es)

/-- Express.single_press_b, identical to single_press_a on channel B. -/
def single_press_b (t : Tick) (es : ExpressState) : Bool × ExpressState :=
  if t.btnB = false then (false, es)
  else if qsub t.now es.last_button_b > sensitivity then
    (true, { es with last_button_b := t.now })
  else (false, es)

/-- The disjunction cpx.single_press_a or cpx.single_press_b as Python
evaluates it: single_press_a always runs; single_press_b runs only when the
first returned False (short-circuit), so its timestamp update is skipped
when channel A already qualified. -/
def single_press_either (t : Tick) (es : ExpressState) : Bool × ExpressState :=
  let pa := single_press_a t es
  if pa.1 then (true, pa.2) else single_press_b t pa.2

/-- Observable calls made to the hardware collaborator. -/
inductive Event where
  | setAll (colors : List RGB)
  | setPixel (index : ℕ) (color : RGB)
  | tone (frequency : ℚ) (duration : ℚ)
  | sleepFor (seconds : ℚ)
deriving DecidableEq, Repr

/-- Pomodoro.blink: toggle the whole display between the stored snapshot
(self.led_state) and all-off. -/
def blink (led_state : List RGB) (pixels : List RGB) : List RGB :=
  if pixels = led_state then List.replicate 10 black else led_state

/-- Result of Pomodoro.pause on a given tick trace: the tick on which the
loop returned, the pixel buffer at return (the code restores the snapshot),
the Express state, the unconsumed ticks, and the hardware events emitted. -/
structure PauseOut where
  exitTick : Tick
  pixels : List RGB
  es : ExpressState
  rest : List Tick
  events : List Event
deriving DecidableEq, Repr

/-- Pomodoro.pause: blink the display every 0.3 seconds; on a qualifying
press of either channel restore the snapshot and return.  led_state is the
snapshot self.led_state captured on entry, pause_time the blink reference
timestamp (on entry, the entry time).  Returns none when the tick trace is
exhausted before a qualifying press. -/
def pause (led_state : List RGB) (pause_time : ℚ) (pixels : List RGB)
    (es : ExpressState) : List Tick → Option PauseOut
  | [] => none
  | t :: rest =>
    let blinked := decide (qsub t.now pause_time > mkRat 3 10)
    let pixels1 := if blinked then blink led_state pixels else pixels
    let pause_time1 := if blinked then t.now else pause_time
    let ev1 : List Event :=
      if blinked then [Event.setAll (blink led_state pixels)] else []
    let pr := single_press_either t es
    if pr.1 then
      some ⟨t, led_state, pr.2, rest, ev1 ++ [Event.setAll led_state]⟩
    else
      match pause led_state pause_time1 pixels1 pr.2 rest with
      | none => none
      | some o => some { o with events := ev1 ++ o.events }

/-- The Pomodoro timer configuration: the duration attributes hold seconds
(the setters store minutes times 60), plus the schedule and the orientation
derived start/stop leds. -/
structure Pomodoro where
  work_duration_secs : ℚ
  short_break_secs : ℚ
  long_break_secs : ℚ
  schedule : List String
  start_led : ℕ
  stop_led : ℕ
deriving DecidableEq, Repr

/-- Pomodoro.__init__ with the given usb_down orientation: default
durations 45/10/20 minutes (stored in seconds by the setters), default
schedule, and orientation-derived start/stop leds. -/
def Pomodoro.mkDefault (usb_down : Bool) : Pomodoro :=
  { work_duration_secs := qmul 45 60
    short_break_secs := qmul 10 60
    long_break_secs := qmul 20 60
    schedule := ["w", "sb", "w", "lb", "w", "sb", "w"]
    start_led := if usb_down then 4 else 9
    stop_led := if usb_down then 5 else 0 }

/-- The work_duration property getter: seconds divided by 60. -/
def work_duration_get (p : Pomodoro) : ℚ := qdiv p.work_duration_secs 60

/-- The work_duration property setter: rejects non-positive values with a
ValueError, otherwise stores minutes times 60. -/
def work_duration_set (p : Pomodoro) (duration : ℚ) : Except String Pomodoro :=
  if duration ≤ 0 then Except.error "The duration must larger than zero"
  else Except.ok { p with work_duration_secs := qmul duration 60 }

/-- The short_break property getter. -/
def short_break_get (p : Pomodoro) : ℚ := qdiv p.short_break_secs 60

/-- The short_break property setter. -/
def short_break_set (p : Pomodoro) (duration : ℚ) : Except String Pomodoro :=
  if duration ≤ 0 then Except.error "The duration must larger than zero"
  else Except.ok { p with short_break_secs := qmul duration 60 }

/-- The long_break property getter. -/
def long_break_get (p : Pomodoro) : ℚ := qdiv p.long_break_secs 60

/-- The long_break property setter. -/
def long_break_set (p : Pomodoro) (duration : ℚ) : Except String Pomodoro :=
  if duration ≤ 0 then Except.error "The duration must larger than zero"
  else Except.ok { p with long_break_secs := qmul duration 60 }

/-- The self.intervals lookup table: maps a schedule tag to the duration
attribute (in seconds, as read by getattr) and the interval colour. -/
def intervals (p : Pomodoro) (period : String) : Option (ℚ × RGB) :=
  if period = "w" then some (p.work_duration_secs, (0, 0, 5))
  else if period = "sb" then some (p.short_break_secs, (0, 5, 0))
  else if period = "lb" then some (p.long_break_secs, (4, 1, 3))
  else none

/-- Outcome of one interval: Completed (countdown reached the stop led) or
Cancelled (a qualifying channel-B press). -/
inductive IntervalResult where
  | Completed
  | Cancelled
deriving DecidableEq, Repr

/-- Result of a full interval run: the outcome, final pixel buffer, Express
state, unconsumed ticks, the monotonic time at which the function returned,
and the hardware events emitted. -/
structure IntervalOut where
  result : IntervalResult
  pixels : List RGB
  es : ExpressState
  rest : List Tick
  exitTime : ℚ
  events : List Event
deriving DecidableEq, Repr

/-- Which of the three conditional bodies of one while-iteration of
Pomodoro.interval actually ran: the countdown body, the pause body, the
cancel body. -/
structure Handled where
  progressed : Bool
  paused : Bool
  cancelled : Bool
deriving DecidableEq, Repr

/-- How many of the three per-iteration actions were handled. -/
def Handled.count (h : Handled) : ℕ :=
  h.progressed.toNat + h.paused.toNat + h.cancelled.toNat

/-- The hardware events of the cancel animation: two cycles of a full-red
flash followed by blank, with the corresponding sleeps. -/
def abortAnimation : List Event :=
  [Event.setAll (List.replicate 10 (10, 0, 0)), Event.sleepFor (mkRat 2 10),
   Event.setAll (List.replicate 10 black), Event.sleepFor (mkRat 1 10),
   Event.setAll (List.replicate 10 (10, 0, 0)), Event.sleepFor (mkRat 2 10),
   Event.setAll (List.replicate 10 black), Event.sleepFor (mkRat 1 10)]

/-- Outcome of one while-iteration of Pomodoro.interval: either the
function returned (done), or the loop continues with updated state (next),
or the tick trace was exhausted inside the nested pause loop (stuck). -/
inductive TickOutcome where
  | done (out : IntervalOut)
  | next (led_start : ℚ) (led_current : ℕ) (pixels : List RGB)
      (es : ExpressState) (rest : List Tick) (events : List Event)
  | stuck
deriving DecidableEq, Repr

/-- The update led_start += monotonic() - pre_pause performed after the
pause sub-loop returns: the pause's wall-clock duration is added to the
countdown reference timestamp. -/
def handle_pause (led_start pre_pause exit_now : ℚ) : ℚ :=
  qadd led_start (qsub exit_now pre_pause)

/-- One while-iteration of Pomodoro.interval on tick t, with rest the ticks
available to a nested pause loop.  In source order: the countdown check
(turn off the current led; if it is the stop led, play the tone when the
switch is set and return; otherwise step the led index down modulo 10 and
reset led_start), then the channel-A check (enter the pause sub-loop, then
fold its wall-clock duration into led_start), then the channel-B check
(red double-flash and return Cancelled). -/
def intervalTick (cfg_stop : ℕ) (cfg_switch : Bool) (led_duration : ℚ)
    (led_start : ℚ) (led_current : ℕ) (pixels : List RGB)
    (es : ExpressState) (t : Tick) (rest : List Tick) :
    TickOutcome × Handled :=
  let fire := decide (qsub t.now led_start > led_duration)
  if fire ∧ led_current = cfg_stop then
    (TickOutcome.done ⟨IntervalResult.Completed, pixels.set led_current black,
        es, rest, t.now,
        Event.setPixel led_current black ::
          (if cfg_switch then [Event.tone 1720 (mkRat 1 10)] else [])⟩,
     ⟨true, false, false⟩)
  else
    let led_start1 := if fire then t.now else led_start
    let led_current1 := if fire then (led_current + 9) % 10 else led_current
    let pixels1 := if fire then pixels.set led_current black else pixels
    let ev1 : List Event :=
      if fire then [Event.setPixel led_current black] else []
    let pa := single_press_a t es
    if pa.1 then
      match pause pixels1 t.now pixels1 pa.2 rest with
      | none => (TickOutcome.stuck, ⟨fire, true, false⟩)
      | some po =>
        let led_start2 := handle_pause led_start1 t.now po.exitTick.now
        let pb := single_press_b po.exitTick po.es
        if pb.1 then
          (TickOutcome.done ⟨IntervalResult.Cancelled,
              List.replicate 10 black, pb.2, po.rest, qadd po.exitTick.now (mkRat 3 5),
              ev1 ++ po.events ++ abortAnimation⟩,
           ⟨fire, true, true⟩)
        else
          (TickOutcome.next led_start2 led_current1 po.pixels pb.2 po.rest
              (ev1 ++ po.events),
           ⟨fire, true, false⟩)
    else
      let pb := single_press_b t pa.2
      if pb.1 then
        (TickOutcome.done ⟨IntervalResult.Cancelled,
            List.replicate 10 black, pb.2, rest, qadd t.now (mkRat 3 5),
            ev1 ++ abortAnimation⟩,
         ⟨fire, false, true⟩)
      else
        (TickOutcome.next led_start1 led_current1 pixels1 pb.2 rest ev1,
         ⟨fire, false, false⟩)

/-- The while-loop of Pomodoro.interval, driven by the tick trace; the fuel
argument only bounds the number of iterations so that the recursion is
structural (callers pass the trace length, which suffices because every
iteration consumes at least one tick). -/
def intervalLoop (cfg_stop : ℕ) (cfg_switch : Bool) (led_duration : ℚ) :
    ℕ → ℚ → ℕ → List RGB → ExpressState → List Tick → Option IntervalOut
  | 0, _, _, _, _, _ => none
  | _ + 1, _, _, _, _, [] => none
  | fuel + 1, led_start, led_current, pixels, es, t :: rest =>
    match intervalTick cfg_stop cfg_switch led_duration led_start led_current
        pixels es t rest with
    | (TickOutcome.done out, _) => some out
    | (TickOutcome.stuck, _) => none
    | (TickOutcome.next ls lc px es1 rest1 ev, _) =>
      match intervalLoop cfg_stop cfg_switch led_duration fuel ls lc px es1
          rest1 with
      | none => none
      | some out => some { out with events := ev ++ out.events }

/-- Pomodoro.interval: fill the display with the interval colour, set
led_start to the entry time t0, led_duration to duration / 10, the current
led to the orientation's start led, and run the loop. -/
def interval (cfg_start cfg_stop : ℕ) (cfg_switch : Bool) (duration : ℚ)
    (color : RGB) (t0 : ℚ) (es : ExpressState) (ticks : List Tick) :
    Option IntervalOut :=
  match intervalLoop cfg_stop cfg_switch (qdiv duration 10) ticks.length t0
      cfg_start (List.replicate 10 color) es ticks with
  | none => none
  | some out =>
    some { out with
      events := Event.setAll (List.replicate 10 color) :: out.events }

/-- Result of a work session: the interval outcomes in schedule order, the
final Express state, return time, unconsumed ticks and events. -/
structure SessionOut where
  results : List IntervalResult
  es : ExpressState
  exitTime : ℚ
  rest : List Tick
  events : List Event
deriving DecidableEq, Repr

/-- The for-loop of Pomodoro.work_session over a remaining schedule: each
entry is resolved through the intervals table and run by interval; the
returned value of interval is not consulted, so the loop always proceeds to
the next entry. -/
def runSchedule (cfg_switch : Bool) (p : Pomodoro) :
    List String → ℚ → ExpressState → List Tick → Option SessionOut
  | [], t0, es, ticks => some ⟨[], es, t0, ticks, []⟩
  | period :: restSched, t0, es, ticks =>
    match intervals p period with
    | none => none
    | some (duration, color) =>
      match interval p.start_led p.stop_led cfg_switch duration color t0 es
          ticks with
      | none => none
      | some o =>
        match runSchedule cfg_switch p restSched o.exitTime o.es o.rest with
        | none => none
        | some s =>
          some ⟨o.result :: s.results, s.es, s.exitTime, s.rest,
            o.events ++ s.events⟩

/-- Pomodoro.work_session: run the configured schedule in order. -/
def work_session (cfg_switch : Bool) (p : Pomodoro) (t0 : ℚ)
    (es : ExpressState) (ticks : List Tick) : Option SessionOut :=
  runSchedule cfg_switch p p.schedule t0 es ticks

/-- The indices of the setPixel events of an event list, in order: the
sequence of leds turned off (or otherwise individually written) by a run. -/
def setPixelIndices : List Event → List ℕ
  | [] => []
  | Event.setPixel i _ :: rest => i :: setPixelIndices rest
  | _ :: rest => setPixelIndices rest

/-- Whether a tick outcome is an immediate return with a Cancelled result. -/
def TickOutcome.endsCancelled : TickOutcome → Bool
  | TickOutcome.done out => decide (out.result = IntervalResult.Cancelled)
  | _ => false

/-- A display fully lit in the default work colour. -/
def blueFill : List RGB := List.replicate 10 (0, 0, 5)

/-- A press-free trace of ten ticks, two seconds apart. -/
def quietTicks : List Tick :=
  [⟨2, false, false⟩, ⟨4, false, false⟩, ⟨6, false, false⟩,
   ⟨8, false, false⟩, ⟨10, false, false⟩, ⟨12, false, false⟩,
   ⟨14, false, false⟩, ⟨16, false, false⟩, ⟨18, false, false⟩,
   ⟨20, false, false⟩]

/-- The run of interval 4 5 true 10 on quietTicks, written out. -/
def intervalOutQuiet : IntervalOut :=
  ⟨IntervalResult.Completed, List.replicate 10 black, ⟨0, 0⟩, [], 20,
    Event.setAll blueFill ::
      ((([4, 3, 2, 1, 0, 9, 8, 7, 6, 5] : List ℕ).map
          (fun i => Event.setPixel i black)) ++ [Event.tone 1720 (mkRat 1 10)])⟩

/-- The run of interval 4 5 true 10 on a single cancelling tick. -/
def intervalOutCancel : IntervalOut :=
  ⟨IntervalResult.Cancelled, List.replicate 10 black, ⟨0, 1⟩, [], mkRat 8 5,
    Event.setAll blueFill :: abortAnimation⟩

/-- The run of pause on a single resuming tick at time 1, snapshot and
pixel buffer both fully blue. -/
def pauseOutResume : PauseOut :=
  ⟨⟨1, true, false⟩, blueFill, ⟨1, 0⟩, [],
    [Event.setAll (List.replicate 10 black), Event.setAll blueFill]⟩

/-- A two-entry configuration whose first interval will be cancelled:
ten-second work and short-break durations, schedule work then short break,
usb-down orientation leds. -/
def pCancelFirst : Pomodoro := ⟨10, 10, 1200, ["w", "sb"], 4, 5⟩

/-- A trace whose first tick is a qualifying channel-B press (cancelling
the first interval) followed by a press-free completion of the second. -/
def traceCancelFirst : List Tick :=
  ⟨1, false, true⟩ ::
    [⟨4, false, false⟩, ⟨6, false, false⟩, ⟨8, false, false⟩,
     ⟨10, false, false⟩, ⟨12, false, false⟩, ⟨14, false, false⟩,
     ⟨16, false, false⟩, ⟨18, false, false⟩, ⟨20, false, false⟩,
     ⟨22, false, false⟩]

/-- A one-entry configuration with a ten-second work interval. -/
def pOneWork : Pomodoro := ⟨10, 600, 1200, ["w"], 4, 5⟩

/-- The session run of pOneWork on quietTicks with the switch off. -/
def sessionOutOneWork : SessionOut :=
  ⟨[IntervalResult.Completed], ⟨0, 0⟩, 20, [],
    Event.setAll blueFill ::
      (([4, 3, 2, 1, 0, 9, 8, 7, 6, 5] : List ℕ).map
        (fun i => Event.setPixel i black))⟩

theorem qadd_eq (a b : ℚ) : qadd a b = a + b := (Rat.add_def' a b).symm

theorem qsub_eq (a b : ℚ) : qsub a b = a - b := (Rat.sub_def' a b).symm

theorem qmul_eq (a b : ℚ) : qmul a b = a * b := by
  rw [Rat.mul_def, Rat.normalize_eq_mkRat]; rfl

theorem qdiv_eq (a b : ℚ) : qdiv a b = a / b := by
  conv_rhs => rw [← Rat.num_divInt_den a, ← Rat.num_divInt_den b]
  rw [Rat.divInt_div_divInt]; rfl

theorem sensitivity_eq : sensitivity = 1/4 := by
  rw [sensitivity, Rat.mkRat_eq_div]; norm_num

/-- C3: the debouncer single_press on a channel returns false and leaves the
last trigger timestamp unchanged when the raw button state is false; when
the raw state is true and now minus last_trigger_time exceeds the
sensitivity window of 0.25 seconds it sets the timestamp to now and returns
true; otherwise it returns false with no update — so a continuously held
button re-triggers exactly once per elapsed sensitivity window. -/
theorem single_press_cases (t : Tick) (es : ExpressState) :
    sensitivity = 1/4 ∧
    (t.btnA = false → single_press_a t es = (false, es)) ∧
    (t.btnA = true → t.now - es.last_button_a > sensitivity →
      single_press_a t es = (true, { es with last_button_a := t.now })) ∧
    (t.btnA = true → ¬ t.now - es.last_button_a > sensitivity →
      single_press_a t es = (false, es)) ∧
    (t.btnB = false → single_press_b t es = (false, es)) ∧
    (t.btnB = true → t.now - es.last_button_b > sensitivity →
      single_press_b t es = (true, { es with last_button_b := t.now })) ∧
    (t.btnB = true → ¬ t.now - es.last_button_b > sensitivity →
      single_press_b t es = (false, es)) := by
  refine ⟨sensitivity_eq, fun h => ?_, fun h h2 => ?_, fun h h2 => ?_,
    fun h => ?_, fun h h2 => ?_, fun h h2 => ?_⟩
  · simp [single_press_a, h]
  · simp [single_press_a, qsub_eq, h, h2]
  · simp [single_press_a, qsub_eq, h, h2]
  · simp [single_press_b, h]
  · simp [single_press_b, qsub_eq, h, h2]
  · simp [single_press_b, qsub_eq, h, h2]

/-- Witness: a concrete qualifying press on channel A. -/
theorem single_press_cases_witness :
    single_press_a ⟨1, true, false⟩ ⟨0, 0⟩ = (true, ⟨1, 0⟩) :=
  (single_press_cases ⟨1, true, false⟩ ⟨0, 0⟩).2.2.1 rfl
    (by rw [sensitivity_eq]; norm_num)

/-- C6: each duration setter raises the configuration error exactly when
the given duration is less than or equal to zero, and succeeds without
raising for every positive duration. -/
theorem duration_setters_error_iff (p : Pomodoro) (d : ℚ) :
    ((∃ e, work_duration_set p d = Except.error e) ↔ d ≤ 0) ∧
    ((∃ e, short_break_set p d = Except.error e) ↔ d ≤ 0) ∧
    ((∃ e, long_break_set p d = Except.error e) ↔ d ≤ 0) ∧
    (0 < d → (∃ q, work_duration_set p d = Except.ok q) ∧
      (∃ q, short_break_set p d = Except.ok q) ∧
      (∃ q, long_break_set p d = Except.ok q)) := by
  unfold work_duration_set short_break_set long_break_set
  by_cases h : d ≤ 0
  · simp [h, not_lt.mpr h]
  · simp [h]

/-- Witness: the setter rejects a zero duration. -/
theorem duration_setters_error_iff_witness :
    ∃ e, work_duration_set (Pomodoro.mkDefault true) 0 = Except.error e :=
  ((duration_setters_error_iff (Pomodoro.mkDefault true) 0).1).mpr le_rfl

/-- C7: for every positive duration, setting it and reading it back through
the corresponding getter returns the same value: the setter stores the
minutes value times 60 and the getter divides by 60, and over the exact
rational model of the float arithmetic the round trip is the identity. -/
theorem duration_round_trip (p : Pomodoro) (d : ℚ) (hd : 0 < d) :
    (∃ q, work_duration_set p d = Except.ok q ∧ work_duration_get q = d) ∧
    (∃ q, short_break_set p d = Except.ok q ∧ short_break_get q = d) ∧
    (∃ q, long_break_set p d = Except.ok q ∧ long_break_get q = d) := by
  have h : ¬ d ≤ 0 := not_le.mpr hd
  have h60 : qdiv (qmul d 60) 60 = d := by
    rw [qdiv_eq, qmul_eq]; norm_num
  refine ⟨⟨{ p with work_duration_secs := qmul d 60 }, ?_, ?_⟩,
    ⟨{ p with short_break_secs := qmul d 60 }, ?_, ?_⟩,
    ⟨{ p with long_break_secs := qmul d 60 }, ?_, ?_⟩⟩ <;>
    simp [work_duration_set, work_duration_get, short_break_set,
      short_break_get, long_break_set, long_break_get, h, h60]

/-- Witness: round trip at 45 minutes. -/
theorem duration_round_trip_witness :
    (∃ q, work_duration_set (Pomodoro.mkDefault true) 45 = Except.ok q ∧
      work_duration_get q = 45) ∧
    (∃ q, short_break_set (Pomodoro.mkDefault true) 45 = Except.ok q ∧
      short_break_get q = 45) ∧
    (∃ q, long_break_set (Pomodoro.mkDefault true) 45 = Except.ok q ∧
      long_break_get q = 45) :=
  duration_round_trip (Pomodoro.mkDefault true) 45 (by norm_num)

/-- C4: the update applied to the countdown reference timestamp after the
pause sub-loop returns (handle_pause, the led_start update in the
channel-A branch of the interval loop) adds exactly the pause's wall-clock
duration, so the apparent elapsed time at the resume instant equals the
elapsed time at the pause instant, and at any later instant it equals the
pre-pause elapsed time plus the time since the resume: the remaining time
to the next light transition, in unpaused time, is preserved exactly. -/
theorem pause_preserves_remaining (led_start pre_pause exit_now now : ℚ) :
    exit_now - handle_pause led_start pre_pause exit_now
        = pre_pause - led_start ∧
    now - handle_pause led_start pre_pause exit_now
        = (pre_pause - led_start) + (now - exit_now) := by
  unfold handle_pause
  rw [qadd_eq, qsub_eq]
  exact ⟨by ring, by ring⟩

theorem single_press_either_raw (t : Tick) (es : ExpressState)
    (h : (single_press_either t es).1 = true) :
    t.btnA = true ∨ t.btnB = true := by
  by_cases ha : t.btnA = true
  · exact Or.inl ha
  · right
    by_cases hb : t.btnB = true
    · exact hb
    · rw [Bool.not_eq_true] at ha hb
      simp [single_press_either, single_press_a, single_press_b, ha, hb] at h

/-- C9: the pause sub-loop returns only on a tick of its trace on which the
short-circuit qualifying-press check of channel A or channel B fires (so a
raw press of one of the two channels is present on the exit tick, and the
returned Express state is the one produced by that successful check), and
the pixel buffer it returns is exactly the snapshot captured on entry: the
blinking leaves no residual change to the display. -/
theorem pause_exit_spec (led_state : List RGB) :
    ∀ (ticks : List Tick) (pause_time : ℚ) (pixels : List RGB)
      (es : ExpressState) (out : PauseOut),
      pause led_state pause_time pixels es ticks = some out →
      out.pixels = led_state ∧ out.exitTick ∈ ticks ∧
        (∃ es0, single_press_either out.exitTick es0 = (true, out.es)) ∧
        (out.exitTick.btnA = true ∨ out.exitTick.btnB = true) := by
  intro ticks
  induction ticks with
  | nil => intro _ _ _ _ h; simp [pause] at h
  | cons t rest ih =>
    intro pause_time pixels es out h
    simp only [pause] at h
    by_cases hp : (single_press_either t es).1 = true
    · rw [if_pos hp] at h
      cases h
      refine ⟨rfl, List.mem_cons_self t rest, ⟨es, ?_⟩, ?_⟩
      · rw [← hp]
      · exact single_press_either_raw t es hp
    · rw [if_neg hp] at h
      cases heq : pause led_state
          (if decide (qsub t.now pause_time > mkRat 3 10) then t.now
            else pause_time)
          (if decide (qsub t.now pause_time > mkRat 3 10)
            then blink led_state pixels else pixels)
          (single_press_either t es).2 rest with
      | none => rw [heq] at h; cases h
      | some o =>
        rw [heq] at h
        cases h
        obtain ⟨h1, h2, h3, h4⟩ := ih _ _ _ _ heq
        exact ⟨h1, List.mem_cons_of_mem t h2, h3, h4⟩

/-- Witness: a pause resumed by a qualifying channel-A press one second in. -/
theorem pause_exit_spec_witness :
    pauseOutResume.pixels = blueFill ∧
      pauseOutResume.exitTick ∈ [(⟨1, true, false⟩ : Tick)] ∧
      (∃ es0, single_press_either pauseOutResume.exitTick es0
        = (true, pauseOutResume.es)) ∧
      (pauseOutResume.exitTick.btnA = true ∨
        pauseOutResume.exitTick.btnB = true) :=
  pause_exit_spec blueFill [⟨1, true, false⟩] 0 blueFill ⟨0, 0⟩ pauseOutResume
    (by decide)

/-- C5 counterexample: on a tick on which the countdown threshold has
passed (with the current led not the stop led) and a qualifying channel-B
press is read, one loop iteration handles both the normal countdown
progression and the cancel — two of the three actions, not at most one —
and the progression is handled before the cancel, so the cancel does not
pre-empt the countdown of that iteration. -/
theorem tick_two_actions :
    (intervalTick 5 true 1 0 4 blueFill ⟨0, 0⟩ ⟨2, false, true⟩ []).2
        = ⟨true, false, true⟩ ∧
    ¬ (intervalTick 5 true 1 0 4 blueFill ⟨0, 0⟩ ⟨2, false, true⟩
        []).2.count ≤ 1 := by
  decide

/-- C5 amended: within one iteration the three checks run in source order
(countdown progression, then pause, then cancel) and more than one of them
can be handled in the same iteration; whenever the cancel body runs, the
iteration ends the interval with a Cancelled result — the press takes
effect at the end of that iteration, after any countdown progression
already performed in it. -/
theorem tick_cancel_ends_iteration (cfg_stop : ℕ) (cfg_switch : Bool)
    (led_duration led_start : ℚ) (led_current : ℕ) (pixels : List RGB)
    (es : ExpressState) (t : Tick) (rest : List Tick) :
    (intervalTick cfg_stop cfg_switch led_duration led_start led_current
        pixels es t rest).2.cancelled = true →
    (intervalTick cfg_stop cfg_switch led_duration led_start led_current
        pixels es t rest).1.endsCancelled = true := by
  simp only [intervalTick]
  split
  · intro h; simp at h
  · split
    · split
      · intro h; simp at h
      · split
        · intro _; simp [TickOutcome.endsCancelled]
        · intro h; simp at h
    · split
      · intro _; simp [TickOutcome.endsCancelled]
      · intro h; simp at h

/-- Witness: the cancel body runs on the two-action tick and the iteration
ends Cancelled. -/
theorem tick_cancel_ends_iteration_witness :
    (intervalTick 5 true 1 0 4 blueFill ⟨0, 0⟩ ⟨2, false, true⟩
        []).1.endsCancelled = true :=
  tick_cancel_ends_iteration 5 true 1 0 4 blueFill ⟨0, 0⟩ ⟨2, false, true⟩ []
    (by decide)

theorem pause_events_no_tone {led_state : List RGB} (f d : ℚ) :
    ∀ (ticks : List Tick) (pause_time : ℚ) (pixels : List RGB)
      (es : ExpressState) (out : PauseOut),
      pause led_state pause_time pixels es ticks = some out →
      Event.tone f d ∉ out.events := by
  intro ticks
  induction ticks with
  | nil => intro _ _ _ _ h; simp [pause] at h
  | cons t rest ih =>
    intro pause_time pixels es out h
    simp only [pause] at h
    by_cases hp : (single_press_either t es).1 = true
    · rw [if_pos hp] at h
      cases h
      split <;> simp
    · rw [if_neg hp] at h
      cases heq : pause led_state
          (if decide (qsub t.now pause_time > mkRat 3 10) then t.now
            else pause_time)
          (if decide (qsub t.now pause_time > mkRat 3 10)
            then blink led_state pixels else pixels)
          (single_press_either t es).2 rest with
      | none => rw [heq] at h; cases h
      | some o =>
        rw [heq] at h
        cases h
        have ho := ih _ _ _ _ heq
        simp only [List.mem_append]
        rintro (h1 | h2)
        · revert h1; split <;> simp
        · exact ho h2

theorem intervalTick_next_no_tone {cfg_stop : ℕ} {cfg_switch : Bool}
    {led_duration led_start : ℚ} {led_current : ℕ} {pixels : List RGB}
    {es : ExpressState} {t : Tick} {rest : List Tick}
    {ls2 : ℚ} {lc2 : ℕ} {px2 : List RGB} {es2 : ExpressState}
    {rest2 : List Tick} {ev : List Event} {hd : Handled} {f dur : ℚ}
    (htick : intervalTick cfg_stop cfg_switch led_duration led_start
        led_current pixels es t rest
      = (TickOutcome.next ls2 lc2 px2 es2 rest2 ev, hd)) :
    Event.tone f dur ∉ ev := by
  simp only [intervalTick] at htick
  split at htick
  · simp at htick
  · split at htick
    · split at htick
      · simp at htick
      · rename_i po hpo
        split at htick
        · simp at htick
        · obtain ⟨h1, h2⟩ := Prod.mk.injEq .. ▸ htick
          cases h1
          have hpo2 := pause_events_no_tone f dur _ _ _ _ _ hpo
          simp only [List.mem_append]
          rintro (h3 | h4)
          · revert h3; split <;> simp
          · exact hpo2 h4
    · split at htick
      · simp at htick
      · obtain ⟨h1, h2⟩ := Prod.mk.injEq .. ▸ htick
        cases h1
        split <;> simp

theorem intervalTick_done_cancel_spec {cfg_stop : ℕ} {cfg_switch : Bool}
    {led_duration led_start : ℚ} {led_current : ℕ} {pixels : List RGB}
    {es : ExpressState} {t : Tick} {rest : List Tick}
    {o : IntervalOut} {hd : Handled} {f dur : ℚ}
    (htick : intervalTick cfg_stop cfg_switch led_duration led_start
        led_current pixels es t rest = (TickOutcome.done o, hd))
    (hres : o.result = IntervalResult.Cancelled) :
    List.IsSuffix abortAnimation o.events ∧ Event.tone f dur ∉ o.events := by
  simp only [intervalTick] at htick
  split at htick
  · obtain ⟨h1, h2⟩ := Prod.mk.injEq .. ▸ htick
    cases h1
    simp at hres
  · split at htick
    · split at htick
      · simp at htick
      · rename_i po hpo
        split at htick
        · obtain ⟨h1, h2⟩ := Prod.mk.injEq .. ▸ htick
          cases h1
          have hpo2 := pause_events_no_tone f dur _ _ _ _ _ hpo
          constructor
          · exact List.suffix_append _ _
          · simp only [List.mem_append]
            rintro ((h3 | h4) | h5)
            · revert h3; split <;> simp
            · exact hpo2 h4
            · revert h5; simp [abortAnimation]
        · simp at htick
    · split at htick
      · obtain ⟨h1, h2⟩ := Prod.mk.injEq .. ▸ htick
        cases h1
        constructor
        · exact List.suffix_append _ _
        · simp only [List.mem_append]
          rintro (h3 | h4)
          · revert h3; split <;> simp
          · revert h4; simp [abortAnimation]
      · simp at htick

theorem intervalTick_cancelled_result {cfg_stop : ℕ} {cfg_switch : Bool}
    {led_duration led_start : ℚ} {led_current : ℕ} {pixels : List RGB}
    {es : ExpressState} {t : Tick} {rest : List Tick}
    {o : IntervalOut} {hd : Handled}
    (htick : intervalTick cfg_stop cfg_switch led_duration led_start
        led_current pixels es t rest = (TickOutcome.done o, hd))
    (hc : hd.cancelled = true) : o.result = IntervalResult.Cancelled := by
  simp only [intervalTick] at htick
  split at htick
  · obtain ⟨h1, h2⟩ := Prod.mk.injEq .. ▸ htick
    cases h1
    cases h2
    simp at hc
  · split at htick
    · split at htick
      · simp at htick
      · split at htick
        · obtain ⟨h1, h2⟩ := Prod.mk.injEq .. ▸ htick
          cases h1
          rfl
        · simp at htick
    · split at htick
      · obtain ⟨h1, h2⟩ := Prod.mk.injEq .. ▸ htick
        cases h1
        rfl
      · simp at htick

theorem intervalLoop_cancel_spec {cfg_stop : ℕ} {cfg_switch : Bool}
    {led_duration f dur : ℚ} :
    ∀ (fuel : ℕ) (ticks : List Tick) (led_start : ℚ) (led_current : ℕ)
      (pixels : List RGB) (es : ExpressState) (out : IntervalOut),
      intervalLoop cfg_stop cfg_switch led_duration fuel led_start led_current
          pixels es ticks = some out →
      out.result = IntervalResult.Cancelled →
      List.IsSuffix abortAnimation out.events ∧
        Event.tone f dur ∉ out.events := by
  intro fuel
  induction fuel with
  | zero => intro ticks ls lc px es out h; simp [intervalLoop] at h
  | succ n ih =>
    intro ticks ls lc px es out h hres
    cases ticks with
    | nil => simp [intervalLoop] at h
    | cons t rest =>
      rw [intervalLoop] at h
      cases htick : intervalTick cfg_stop cfg_switch led_duration ls lc px es
          t rest with
      | mk r hdl =>
        rw [htick] at h
        cases r with
        | done o =>
          injection h with h2
          subst h2
          exact intervalTick_done_cancel_spec htick hres
        | stuck => cases h
        | next ls2 lc2 px2 es2 rest2 ev =>
          dsimp only at h
          cases hrec : intervalLoop cfg_stop cfg_switch led_duration n ls2 lc2
              px2 es2 rest2 with
          | none => rw [hrec] at h; cases h
          | some o2 =>
            rw [hrec] at h
            injection h with h2
            subst h2
            obtain ⟨hsuf, hnt⟩ := ih rest2 ls2 lc2 px2 es2 o2 hrec hres
            constructor
            · exact hsuf.trans (List.suffix_append _ _)
            · simp only [List.mem_append]
              rintro (h3 | h4)
              · exact intervalTick_next_no_tone htick h3
              · exact hnt h4

/-- C8: whenever a qualifying channel-B press is observed by an iteration
of the interval loop (its cancel body runs and the iteration returns), the
returned result is Cancelled and the iteration's events end with the abort
animation — exactly two cycles of a full-red flash then blank, the content
of abortAnimation — with no tone-play among them; moreover any interval run
returning Cancelled has the abort animation as a suffix of its event trace
and never invokes the tone-play operation, so the completion tone is
bypassed on the cancel path and the countdown never reaches the stop led on
that run. -/
theorem interval_cancel_abort_no_tone (f dur : ℚ) :
    (∀ (cfg_stop : ℕ) (cfg_switch : Bool) (led_duration led_start : ℚ)
        (led_current : ℕ) (pixels : List RGB) (es : ExpressState) (t : Tick)
        (rest : List Tick) (o : IntervalOut) (hd : Handled),
      intervalTick cfg_stop cfg_switch led_duration led_start led_current
          pixels es t rest = (TickOutcome.done o, hd) →
      hd.cancelled = true →
      o.result = IntervalResult.Cancelled ∧
        List.IsSuffix abortAnimation o.events ∧
        Event.tone f dur ∉ o.events) ∧
    (∀ (cfg_start cfg_stop : ℕ) (cfg_switch : Bool) (duration : ℚ)
        (color : RGB) (t0 : ℚ) (es : ExpressState) (ticks : List Tick)
        (out : IntervalOut),
      interval cfg_start cfg_stop cfg_switch duration color t0 es ticks
          = some out →
      out.result = IntervalResult.Cancelled →
      List.IsSuffix abortAnimation out.events ∧
        Event.tone f dur ∉ out.events) := by
  constructor
  · intro cfg_stop cfg_switch led_duration led_start led_current pixels es t
      rest o hd htick hc
    have hres := intervalTick_cancelled_result htick hc
    exact ⟨hres, intervalTick_done_cancel_spec htick hres⟩
  · intro cfg_start cfg_stop cfg_switch duration color t0 es ticks out h hres
    rw [interval] at h
    cases hloop : intervalLoop cfg_stop cfg_switch (qdiv duration 10)
        ticks.length t0 cfg_start (List.replicate 10 color) es ticks with
    | none => rw [hloop] at h; cases h
    | some o =>
      rw [hloop] at h
      injection h with h2
      subst h2
      obtain ⟨hsuf, hnt⟩ := intervalLoop_cancel_spec _ _ _ _ _ _ _ hloop hres
      constructor
      · exact hsuf.trans (List.suffix_cons _ _)
      · simp only [List.mem_cons]
        rintro (h3 | h4)
        · cases h3
        · exact hnt h4

/-- Witness: a mid-interval channel-B press cancels the run with the abort
animation and no tone. -/
theorem interval_cancel_abort_no_tone_witness :
    List.IsSuffix abortAnimation intervalOutCancel.events ∧
      Event.tone 1720 (mkRat 1 10) ∉ intervalOutCancel.events :=
  (interval_cancel_abort_no_tone 1720 (mkRat 1 10)).2 4 5 true 10 (0, 0, 5) 0
    ⟨0, 0⟩ [⟨1, false, true⟩] intervalOutCancel (by decide) rfl

theorem mkRat_one_ten : (mkRat 1 10 : ℚ) = 1/10 := by
  rw [Rat.mkRat_eq_div]; norm_num

theorem intervalTick_no_press {cfg_stop : ℕ} {cfg_switch : Bool}
    {led_duration led_start : ℚ} {led_current : ℕ} {pixels : List RGB}
    {es : ExpressState} {t : Tick} {rest : List Tick}
    (ha : t.btnA = false) (hb : t.btnB = false) :
    intervalTick cfg_stop cfg_switch led_duration led_start led_current
        pixels es t rest =
      if decide (qsub t.now led_start > led_duration) = true ∧
          led_current = cfg_stop then
        (TickOutcome.done ⟨IntervalResult.Completed,
            pixels.set led_current black, es, rest, t.now,
            Event.setPixel led_current black ::
              (if cfg_switch then [Event.tone 1720 (mkRat 1 10)] else [])⟩,
         ⟨true, false, false⟩)
      else if decide (qsub t.now led_start > led_duration) = true then
        (TickOutcome.next t.now ((led_current + 9) % 10)
            (pixels.set led_current black) es rest
            [Event.setPixel led_current black],
         ⟨true, false, false⟩)
      else
        (TickOutcome.next led_start led_current pixels es rest [],
         ⟨false, false, false⟩) := by
  by_cases hf : decide (qsub t.now led_start > led_duration) = true <;>
    by_cases hs : led_current = cfg_stop <;>
    simp [intervalTick, single_press_a, single_press_b, ha, hb, hf, hs]

theorem intervalLoop_no_press (cfg_stop : ℕ) (cfg_switch : Bool)
    (led_duration : ℚ) :
    ∀ (fuel : ℕ) (ticks : List Tick) (led_start : ℚ) (led_current : ℕ)
      (pixels : List RGB) (es : ExpressState) (out : IntervalOut),
      (∀ t ∈ ticks, t.btnA = false ∧ t.btnB = false) →
      cfg_stop < pixels.length →
      intervalLoop cfg_stop cfg_switch led_duration fuel led_start led_current
          pixels es ticks = some out →
      out.result = IntervalResult.Completed ∧
        out.pixels[cfg_stop]? = some black ∧
        (Event.tone 1720 (mkRat 1 10) ∈ out.events ↔ cfg_switch = true) := by
  intro fuel
  induction fuel with
  | zero => intro ticks ls lc px es out hnp hlen h; simp [intervalLoop] at h
  | succ n ih =>
    intro ticks ls lc px es out hnp hlen h
    cases ticks with
    | nil => simp [intervalLoop] at h
    | cons t rest =>
      obtain ⟨ha, hb⟩ := hnp t (List.mem_cons_self t rest)
      rw [intervalLoop, intervalTick_no_press ha hb] at h
      by_cases hf : decide (qsub t.now ls > led_duration) = true
      · by_cases hs : lc = cfg_stop
        · rw [if_pos ⟨hf, hs⟩] at h
          injection h with h2
          subst h2
          subst hs
          refine ⟨rfl, ?_, ?_⟩
          · exact List.getElem?_set_eq_of_lt black hlen
          · cases cfg_switch <;> simp
        · rw [if_neg (fun hc => hs hc.2), if_pos hf] at h
          dsimp only at h
          cases hrec : intervalLoop cfg_stop cfg_switch led_duration n t.now
              ((lc + 9) % 10) (px.set lc black) es rest with
          | none => rw [hrec] at h; cases h
          | some o2 =>
            rw [hrec] at h
            injection h with h2
            subst h2
            obtain ⟨r1, r2, r3⟩ := ih rest t.now ((lc + 9) % 10)
              (px.set lc black) es o2
              (fun u hu => hnp u (List.mem_cons_of_mem t hu))
              (by simpa using hlen) hrec
            refine ⟨r1, r2, ?_⟩
            simp [r3]
      · rw [if_neg (fun hc => hf hc.1), if_neg hf] at h
        dsimp only at h
        cases hrec : intervalLoop cfg_stop cfg_switch led_duration n ls lc px
            es rest with
        | none => rw [hrec] at h; cases h
        | some o2 =>
          rw [hrec] at h
          injection h with h2
          subst h2
          obtain ⟨r1, r2, r3⟩ := ih rest ls lc px es o2
            (fun u hu => hnp u (List.mem_cons_of_mem t hu)) hlen hrec
          exact ⟨r1, r2, by simpa using r3⟩

/-- C2: for any duration and any press-free tick trace, if the interval
runner returns then it reports Completed (the only return on the press-free
path is the countdown reaching the stop led, on a tick whose time exceeds
elapsed_reference_time by more than led_duration = duration / 10, after
turning off the light at the current index); at that moment the light at
the stop led is off, and the completion tone is emitted if and only if the
switch collaborator reads true. -/
theorem interval_no_press_spec (cfg_start cfg_stop : ℕ) (cfg_switch : Bool)
    (duration : ℚ) (color : RGB) (t0 : ℚ) (es : ExpressState)
    (ticks : List Tick) (out : IntervalOut)
    (hstop : cfg_stop < 10) (_hdur : 0 < duration)
    (hnp : ∀ t ∈ ticks, t.btnA = false ∧ t.btnB = false)
    (h : interval cfg_start cfg_stop cfg_switch duration color t0 es ticks
        = some out) :
    out.result = IntervalResult.Completed ∧
      out.pixels[cfg_stop]? = some black ∧
      (Event.tone 1720 (1/10) ∈ out.events ↔ cfg_switch = true) := by
  rw [interval] at h
  cases hloop : intervalLoop cfg_stop cfg_switch (qdiv duration 10)
      ticks.length t0 cfg_start (List.replicate 10 color) es ticks with
  | none => rw [hloop] at h; cases h
  | some o =>
    rw [hloop] at h
    injection h with h2
    subst h2
    obtain ⟨r1, r2, r3⟩ := intervalLoop_no_press cfg_stop cfg_switch
      (qdiv duration 10) ticks.length ticks t0 cfg_start
      (List.replicate 10 color) es o hnp (by simpa using hstop) hloop
    refine ⟨r1, r2, ?_⟩
    rw [show ((1 : ℚ)/10) = mkRat 1 10 from mkRat_one_ten.symm]
    simpa using r3

/-- Witness: the ten-second, ten-tick press-free run with the switch on. -/
theorem interval_no_press_spec_witness :
    intervalOutQuiet.result = IntervalResult.Completed ∧
      intervalOutQuiet.pixels[5]? = some black ∧
      (Event.tone 1720 (1/10) ∈ intervalOutQuiet.events ↔ true = true) :=
  interval_no_press_spec 4 5 true 10 (0, 0, 5) 0 ⟨0, 0⟩ quietTicks
    intervalOutQuiet (by norm_num) (by norm_num) (by decide) (by decide)

/-- C10: for both orientations — usb_down giving start led 4 and stop led
5, usb up giving start led 9 and stop led 0 — an uninterrupted interval
turns off the leds by decrements modulo 10 from the start led, reaching the
stop led after exactly ten turn-off steps, so each of the ten ring cells is
turned off exactly once (the turn-off sequences have no repeats and cover the
full ring) before the run returns Completed with the whole ring dark. -/
theorem orientation_full_ring :
    (Pomodoro.mkDefault true).start_led = 4 ∧
    (Pomodoro.mkDefault true).stop_led = 5 ∧
    (Pomodoro.mkDefault false).start_led = 9 ∧
    (Pomodoro.mkDefault false).stop_led = 0 ∧
    (interval (Pomodoro.mkDefault true).start_led
        (Pomodoro.mkDefault true).stop_led false 10 (0, 0, 5) 0 ⟨0, 0⟩
        quietTicks).map
          (fun o => (o.result, setPixelIndices o.events, o.pixels))
      = some (IntervalResult.Completed, [4, 3, 2, 1, 0, 9, 8, 7, 6, 5],
          List.replicate 10 black) ∧
    (interval (Pomodoro.mkDefault false).start_led
        (Pomodoro.mkDefault false).stop_led false 10 (0, 0, 5) 0 ⟨0, 0⟩
        quietTicks).map
          (fun o => (o.result, setPixelIndices o.events, o.pixels))
      = some (IntervalResult.Completed, [9, 8, 7, 6, 5, 4, 3, 2, 1, 0],
          List.replicate 10 black) ∧
    ([4, 3, 2, 1, 0, 9, 8, 7, 6, 5] : List ℕ).Nodup ∧
    ([4, 3, 2, 1, 0, 9, 8, 7, 6, 5] : List ℕ).toFinset = Finset.range 10 ∧
    ([9, 8, 7, 6, 5, 4, 3, 2, 1, 0] : List ℕ).Nodup ∧
    ([9, 8, 7, 6, 5, 4, 3, 2, 1, 0] : List ℕ).toFinset = Finset.range 10 := by
  refine ⟨?_, ?_, ?_, ?_, ?_, ?_, ?_, ?_, ?_, ?_⟩ <;> decide

/-- C1 counterexample: with schedule work-then-short-break and a trace
whose first tick is a qualifying channel-B press, the first interval
returns Cancelled and work_session nevertheless runs the second interval,
which completes — the session does not stop after a Cancelled interval. -/
theorem session_runs_after_cancel :
    (work_session false pCancelFirst 0 ⟨0, 0⟩ traceCancelFirst).map
        SessionOut.results
      = some [IntervalResult.Cancelled, IntervalResult.Completed] := by
  decide

theorem runSchedule_length (cfg_switch : Bool) (p : Pomodoro) :
    ∀ (sched : List String) (t0 : ℚ) (es : ExpressState) (ticks : List Tick)
      (s : SessionOut),
      runSchedule cfg_switch p sched t0 es ticks = some s →
      s.results.length = sched.length := by
  intro sched
  induction sched with
  | nil => intro t0 es ticks s h; cases h; rfl
  | cons period restSched ih =>
    intro t0 es ticks s h
    rw [runSchedule] at h
    cases hint : intervals p period with
    | none => rw [hint] at h; cases h
    | some dc =>
      rw [hint] at h
      cases dc with
      | mk duration color =>
        dsimp only at h
        cases hrun : interval p.start_led p.stop_led cfg_switch duration color
            t0 es ticks with
        | none => rw [hrun] at h; cases h
        | some o =>
          rw [hrun] at h
          dsimp only at h
          cases hrest : runSchedule cfg_switch p restSched o.exitTime o.es
              o.rest with
          | none => rw [hrest] at h; cases h
          | some s2 =>
            rw [hrest] at h
            injection h with h2
            subst h2
            simp [ih _ _ _ _ hrest]

/-- C1 amended: a Cancelled interval does not stop the session —
work_session consults no interval result and runs one interval invocation
for every entry of the configured schedule, so whenever it returns, the
list of interval results has exactly the schedule's length, Cancelled
entries included. -/
theorem work_session_runs_whole_schedule (cfg_switch : Bool) (p : Pomodoro)
    (t0 : ℚ) (es : ExpressState) (ticks : List Tick) (s : SessionOut)
    (h : work_session cfg_switch p t0 es ticks = some s) :
    s.results.length = p.schedule.length :=
  runSchedule_length cfg_switch p p.schedule t0 es ticks s h

/-- Witness: a one-entry schedule yields exactly one result. -/
theorem work_session_runs_whole_schedule_witness :
    sessionOutOneWork.results.length = pOneWork.schedule.length :=
  work_session_runs_whole_schedule false pOneWork 0 ⟨0, 0⟩ quietTicks
    sessionOutOneWork (by decide)

end CpxPomodoro